import Mathlib

/-!
Verification of the multi-channel G-code execution engine of RepRapFirmware
(`src/GCodes/GCodes.cpp`): the resource-locking protocol, the move publish
handshake, move segmentation, arc geometry, trigger arbitration and the
restore-point round trip.  Each definition is a shallow embedding of the
correspondingly named C++ function; machine floats are modelled as rationals
(exact arithmetic) except for the transcendental arc-angle computation, which
is modelled over the reals.
-/

namespace RepRapFW

/-! ## Resource locking (GCodes.cpp lines 4629-4716)

A `GCodeBuffer` (input channel) is an element of an abstract type `C` with
decidable equality (channel identity is pointer identity in the source).
`Resource` values are natural numbers; `MoveResource` is the first member of
the `Resource` enumeration (declared in a header outside `src/`).  Each
channel carries a stack of `MachineState` frames; we model only the
`lockedResources` bitmap of each frame, as a `Finset ℕ` (head of the list is
`LatestMachineState()`). -/

/-- First member of the Resource enumeration (the movement lock). -/
def MoveResource : ℕ := 0

/-- The lock-related global state of `GCodes`: the `resourceOwners` table, the
per-channel stack of `MachineState.lockedResources` bitmaps, and the
`toBeHomed` axes bitmap. -/
structure LockState (C : Type) where
  resourceOwners : ℕ → Option C
  machineStackOf : C → List (Finset ℕ)
  toBeHomed : Finset ℕ

variable {C : Type} [DecidableEq C]

/-- The `lockedResources` bitmap of `gb.LatestMachineState()` (head frame;
default empty for an empty stack, which does not arise in the source). -/
def LatestLockedResources (s : LockState C) (c : C) : Finset ℕ :=
  (s.machineStackOf c).headI

/-- The `lockedResources` bitmap of `LatestMachineState().GetPrevious()`;
empty when there is no previous frame (`mc == nullptr`). -/
def PreviousLockedResources (s : LockState C) (c : C) : Finset ℕ :=
  ((s.machineStackOf c).tail).headI

/-- Apply `f` to the head frame of channel `c`'s machine-state stack. -/
def updateLatestFrame (s : LockState C) (c : C) (f : Finset ℕ → Finset ℕ) :
    LockState C :=
  { s with machineStackOf := fun c2 =>
      if c2 = c then
        match s.machineStackOf c with
        | [] => []
        | top :: rest => f top :: rest
      else s.machineStackOf c2 }

/-- GCodes::LockResource (lines 4629-4644): succeed if already owned by the
caller; otherwise acquire only when free, recording ownership in the owner
table and setting the bit in the caller's latest frame; otherwise fail with
the state unchanged.  Returns (success, new state). -/
def LockResource (s : LockState C) (c : C) (r : ℕ) : Bool × LockState C :=
  if s.resourceOwners r = some c then (true, s)
  else if s.resourceOwners r = none then
    (true, updateLatestFrame
      { s with resourceOwners := fun r2 => if r2 = r then some c else s.resourceOwners r2 }
      c (fun b => insert r b))
  else (false, s)

/-- GCodes::GrabResource (lines 4647-4657): unconditionally transfer
ownership to `c` and set the bit in `c`'s latest frame.  Per the source
comment, the resource bit is left set in the original owning channel's
machine state. -/
def GrabResource (s : LockState C) (c : C) (r : ℕ) : LockState C :=
  if s.resourceOwners r = some c then s
  else updateLatestFrame
    { s with resourceOwners := fun r2 => if r2 = r then some c else s.resourceOwners r2 }
    c (fun b => insert r b)

/-- GCodes::UnlockResource (lines 4684-4694): clear ownership only when the
caller is the current owner, clearing the bit in the caller's latest frame
(bits in previous stack levels are deliberately left set). -/
def UnlockResource (s : LockState C) (c : C) (r : ℕ) : LockState C :=
  if s.resourceOwners r = some c then
    { updateLatestFrame s c (fun b => b.erase r) with
        resourceOwners := fun r2 => if r2 = r then none else s.resourceOwners r2 }
  else s

/-- Loop body of GCodes::UnlockAll for resource index `i`: if `c` owns `i`
and `i` is not in `resourcesToKeep`, clear `toBeHomed` when `i` is the
movement resource, clear the owner-table entry and clear the bit in `c`'s
latest frame (the source performs these in that order; they touch disjoint
fields, so they are written here as one record). -/
def unlockAllStep (c : C) (resourcesToKeep : Finset ℕ) (st : LockState C) (i : ℕ) :
    LockState C :=
  if st.resourceOwners i = some c ∧ i ∉ resourcesToKeep then
    { resourceOwners := fun r2 => if r2 = i then none else st.resourceOwners r2,
      machineStackOf := (updateLatestFrame st c (fun b => b.erase i)).machineStackOf,
      toBeHomed := if i = MoveResource then ∅ else st.toBeHomed }
  else st

/-- GCodes::UnlockAll (lines 4697-4716): release every resource owned by `c`
whose bit is not set in the previous machine-state frame; when releasing
`MoveResource` also clear `toBeHomed`.  The source iterates `i` from `0` to
`NumResources - 1`; `numResources` is passed as a parameter here because the
enumeration is declared outside `src/`. -/
def UnlockAll (s : LockState C) (c : C) (numResources : ℕ) : LockState C :=
  (List.range numResources).foldl (unlockAllStep c (PreviousLockedResources s c)) s

/-- One lock-protocol operation performed by some channel. -/
inductive LockOp (C : Type) where
  | lock (c : C) (r : ℕ)
  | unlock (c : C) (r : ℕ)
  | grab (c : C) (r : ℕ)
  | releaseAll (c : C) (numResources : ℕ)

/-- Apply one lock operation to the state (the boolean result of
`LockResource` is discarded here). -/
def applyLockOp (s : LockState C) : LockOp C → LockState C
  | .lock c r => (LockResource s c r).2
  | .unlock c r => UnlockResource s c r
  | .grab c r => GrabResource s c r
  | .releaseAll c n => UnlockAll s c n

/-- Run a sequence of lock operations. -/
def runLockOps (s : LockState C) (ops : List (LockOp C)) : LockState C :=
  ops.foldl applyLockOp s

/-! ### Basic lemmas about the locking primitives -/

lemma updateLatestFrame_resourceOwners (s : LockState C) (c : C)
    (f : Finset ℕ → Finset ℕ) :
    (updateLatestFrame s c f).resourceOwners = s.resourceOwners := rfl

lemma updateLatestFrame_toBeHomed (s : LockState C) (c : C)
    (f : Finset ℕ → Finset ℕ) :
    (updateLatestFrame s c f).toBeHomed = s.toBeHomed := rfl

lemma updateLatestFrame_stack_ne (s : LockState C) (c : C)
    (f : Finset ℕ → Finset ℕ) (c2 : C) (h : c2 ≠ c) :
    (updateLatestFrame s c f).machineStackOf c2 = s.machineStackOf c2 := by
  simp [updateLatestFrame, h]

lemma updateLatestFrame_latest (s : LockState C) (c : C)
    (f : Finset ℕ → Finset ℕ) (hne : s.machineStackOf c ≠ []) :
    LatestLockedResources (updateLatestFrame s c f) c = f (LatestLockedResources s c) := by
  unfold LatestLockedResources updateLatestFrame
  cases h : s.machineStackOf c with
  | nil => exact absurd h hne
  | cons top rest => simp [h]

lemma updateLatestFrame_nonempty (s : LockState C) (c : C)
    (f : Finset ℕ → Finset ℕ) (hne : s.machineStackOf c ≠ []) :
    (updateLatestFrame s c f).machineStackOf c ≠ [] := by
  unfold updateLatestFrame
  cases h : s.machineStackOf c with
  | nil => exact absurd h hne
  | cons top rest => simp [h]

lemma LockResource_true_iff (s : LockState C) (c : C) (r : ℕ) :
    (LockResource s c r).1 = true ↔
      s.resourceOwners r = none ∨ s.resourceOwners r = some c := by
  unfold LockResource
  split_ifs with h1 h2
  · simp [h1]
  · simp [h2]
  · simp [h1, h2]

lemma LockResource_false_eq (s : LockState C) (c : C) (r : ℕ)
    (h : (LockResource s c r).1 = false) : (LockResource s c r).2 = s := by
  unfold LockResource at h ⊢
  split_ifs at h ⊢
  all_goals rfl

lemma LockResource_owner (s : LockState C) (c : C) (r : ℕ)
    (h : (LockResource s c r).1 = true) :
    (LockResource s c r).2.resourceOwners r = some c := by
  unfold LockResource at h ⊢
  split_ifs at h ⊢ with h1 h2
  · exact h1
  · rw [updateLatestFrame_resourceOwners]
    simp

lemma UnlockResource_owner_none (s : LockState C) (c : C) (r : ℕ)
    (h : s.resourceOwners r = some c) :
    (UnlockResource s c r).resourceOwners r = none := by
  unfold UnlockResource
  rw [if_pos h]
  simp

lemma UnlockResource_skip (s : LockState C) (c : C) (r : ℕ)
    (h : ¬ s.resourceOwners r = some c) :
    UnlockResource s c r = s := by
  unfold UnlockResource
  rw [if_neg h]

/-! ### Characterization of UnlockAll -/

lemma UnlockAll_zero (s : LockState C) (c : C) : UnlockAll s c 0 = s := rfl

lemma UnlockAll_succ (s : LockState C) (c : C) (n : ℕ) :
    UnlockAll s c (n + 1) =
      unlockAllStep c (PreviousLockedResources s c) (UnlockAll s c n) n := by
  unfold UnlockAll
  rw [List.range_succ, List.foldl_append]
  rfl

lemma UnlockAll_resourceOwners (s : LockState C) (c : C) (n : ℕ) :
    ∀ r, (UnlockAll s c n).resourceOwners r =
      if r < n ∧ s.resourceOwners r = some c ∧ r ∉ PreviousLockedResources s c
      then none else s.resourceOwners r := by
  induction n with
  | zero => intro r; simp [UnlockAll_zero]
  | succ n ih =>
    intro r
    rw [UnlockAll_succ]
    have hcond : ((UnlockAll s c n).resourceOwners n = some c ∧
        n ∉ PreviousLockedResources s c) ↔
        (s.resourceOwners n = some c ∧ n ∉ PreviousLockedResources s c) := by
      rw [ih n]; simp
    unfold unlockAllStep
    by_cases hsc : s.resourceOwners n = some c ∧ n ∉ PreviousLockedResources s c
    · rw [if_pos (hcond.mpr hsc)]
      show (if r = n then none else (UnlockAll s c n).resourceOwners r) = _
      by_cases hr : r = n
      · subst hr
        simp [hsc.1, hsc.2]
      · have hlt : r < n + 1 ↔ r < n := by omega
        simp only [if_neg hr, ih r, hlt]
    · rw [if_neg (fun h => hsc (hcond.mp h))]
      rw [ih r]
      by_cases hr : r = n
      · subst hr
        have h1 : ¬ (r < r ∧ s.resourceOwners r = some c ∧
            r ∉ PreviousLockedResources s c) := by
          intro h; exact absurd h.1 (lt_irrefl r)
        have h2 : ¬ (r < r + 1 ∧ s.resourceOwners r = some c ∧
            r ∉ PreviousLockedResources s c) := by
          intro h; exact hsc ⟨h.2.1, h.2.2⟩
        rw [if_neg h1, if_neg h2]
      · have hlt : r < n + 1 ↔ r < n := by omega
        simp only [hlt]

lemma UnlockAll_stack_ne (s : LockState C) (c : C) (n : ℕ) (c2 : C) (h : c2 ≠ c) :
    (UnlockAll s c n).machineStackOf c2 = s.machineStackOf c2 := by
  induction n with
  | zero => rfl
  | succ n ih =>
    rw [UnlockAll_succ]
    unfold unlockAllStep
    by_cases hc : (UnlockAll s c n).resourceOwners n = some c ∧
        n ∉ PreviousLockedResources s c
    · rw [if_pos hc]
      show (updateLatestFrame (UnlockAll s c n) c (fun b => b.erase n)).machineStackOf c2 = _
      rw [updateLatestFrame_stack_ne _ _ _ _ h]
      exact ih
    · rw [if_neg hc]
      exact ih

lemma UnlockAll_stack_nonempty (s : LockState C) (c : C) (n : ℕ)
    (h : s.machineStackOf c ≠ []) : (UnlockAll s c n).machineStackOf c ≠ [] := by
  induction n with
  | zero => exact h
  | succ n ih =>
    rw [UnlockAll_succ]
    unfold unlockAllStep
    by_cases hc : (UnlockAll s c n).resourceOwners n = some c ∧
        n ∉ PreviousLockedResources s c
    · rw [if_pos hc]
      show (updateLatestFrame (UnlockAll s c n) c (fun b => b.erase n)).machineStackOf c ≠ []
      exact updateLatestFrame_nonempty _ _ _ ih
    · rw [if_neg hc]
      exact ih

lemma UnlockAll_latest_mem (s : LockState C) (c : C) (n : ℕ)
    (hne : s.machineStackOf c ≠ []) :
    ∀ r, r ∈ LatestLockedResources (UnlockAll s c n) c ↔
      (r ∈ LatestLockedResources s c ∧
        ¬(r < n ∧ s.resourceOwners r = some c ∧ r ∉ PreviousLockedResources s c)) := by
  induction n with
  | zero => intro r; simp [UnlockAll_zero]
  | succ n ih =>
    intro r
    rw [UnlockAll_succ]
    have hcond : ((UnlockAll s c n).resourceOwners n = some c ∧
        n ∉ PreviousLockedResources s c) ↔
        (s.resourceOwners n = some c ∧ n ∉ PreviousLockedResources s c) := by
      rw [UnlockAll_resourceOwners s c n n]; simp
    unfold unlockAllStep
    by_cases hsc : s.resourceOwners n = some c ∧ n ∉ PreviousLockedResources s c
    · rw [if_pos (hcond.mpr hsc)]
      have hstep : LatestLockedResources
          { resourceOwners := fun r2 => if r2 = n then none
              else (UnlockAll s c n).resourceOwners r2,
            machineStackOf :=
              (updateLatestFrame (UnlockAll s c n) c (fun b => b.erase n)).machineStackOf,
            toBeHomed := if n = MoveResource then ∅ else (UnlockAll s c n).toBeHomed } c
          = (LatestLockedResources (UnlockAll s c n) c).erase n := by
        show LatestLockedResources
          (updateLatestFrame (UnlockAll s c n) c (fun b => b.erase n)) c = _
        exact updateLatestFrame_latest _ _ _ (UnlockAll_stack_nonempty s c n hne)
      rw [hstep, Finset.mem_erase, ih r]
      constructor
      · rintro ⟨hrn, hmem, hnot⟩
        refine ⟨hmem, ?_⟩
        rintro ⟨hlt, hown, hkeep⟩
        rcases Nat.lt_succ_iff_lt_or_eq.mp hlt with h | h
        · exact hnot ⟨h, hown, hkeep⟩
        · exact hrn h
      · rintro ⟨hmem, hnot⟩
        have hrn : r ≠ n := by
          rintro rfl
          exact hnot ⟨Nat.lt_succ_self r, hsc.1, hsc.2⟩
        refine ⟨hrn, hmem, ?_⟩
        rintro ⟨hlt, hown, hkeep⟩
        exact hnot ⟨Nat.lt_succ_of_lt hlt, hown, hkeep⟩
    · rw [if_neg (fun h => hsc (hcond.mp h))]
      rw [ih r]
      constructor
      · rintro ⟨hmem, hnot⟩
        refine ⟨hmem, ?_⟩
        rintro ⟨hlt, hown, hkeep⟩
        rcases Nat.lt_succ_iff_lt_or_eq.mp hlt with h | h
        · exact hnot ⟨h, hown, hkeep⟩
        · subst h
          exact hsc ⟨hown, hkeep⟩
      · rintro ⟨hmem, hnot⟩
        refine ⟨hmem, ?_⟩
        rintro ⟨hlt, hown, hkeep⟩
        exact hnot ⟨Nat.lt_succ_of_lt hlt, hown, hkeep⟩

lemma UnlockAll_toBeHomed (s : LockState C) (c : C) (n : ℕ) :
    (UnlockAll s c n).toBeHomed =
      if MoveResource < n ∧ s.resourceOwners MoveResource = some c ∧
          MoveResource ∉ PreviousLockedResources s c
      then ∅ else s.toBeHomed := by
  induction n with
  | zero => simp [UnlockAll_zero]
  | succ n ih =>
    rw [UnlockAll_succ]
    have hcond : ((UnlockAll s c n).resourceOwners n = some c ∧
        n ∉ PreviousLockedResources s c) ↔
        (s.resourceOwners n = some c ∧ n ∉ PreviousLockedResources s c) := by
      rw [UnlockAll_resourceOwners s c n n]; simp
    unfold unlockAllStep
    by_cases hsc : s.resourceOwners n = some c ∧ n ∉ PreviousLockedResources s c
    · rw [if_pos (hcond.mpr hsc)]
      show (if n = MoveResource then (∅ : Finset ℕ)
          else (UnlockAll s c n).toBeHomed) = _
      by_cases hm : n = MoveResource
      · rw [if_pos hm]
        have hlt : MoveResource < n + 1 := by rw [← hm]; exact Nat.lt_succ_self n
        rw [if_pos ⟨hlt, hm ▸ hsc.1, hm ▸ hsc.2⟩]
      · rw [if_neg hm, ih]
        have hlt : MoveResource < n + 1 ↔ MoveResource < n := by omega
        simp only [hlt]
    · rw [if_neg (fun h => hsc (hcond.mp h))]
      rw [ih]
      by_cases hm : MoveResource = n
      · have h1 : ¬ (MoveResource < n ∧ s.resourceOwners MoveResource = some c ∧
            MoveResource ∉ PreviousLockedResources s c) := by
          rintro ⟨hlt, _, _⟩; omega
        have h2 : ¬ (MoveResource < n + 1 ∧ s.resourceOwners MoveResource = some c ∧
            MoveResource ∉ PreviousLockedResources s c) := by
          rintro ⟨_, hown, hkeep⟩
          rw [hm] at hown hkeep
          exact hsc ⟨hown, hkeep⟩
        rw [if_neg h1, if_neg h2]
      · have hlt : MoveResource < n + 1 ↔ MoveResource < n := by omega
        simp only [hlt]

/-! ### Example lock states used to instantiate hypotheses -/

/-- A lock state over two channels in which every resource is free. -/
def exFreeLock : LockState (Fin 2) :=
  { resourceOwners := fun _ => none
    machineStackOf := fun _ => [(∅ : Finset ℕ)]
    toBeHomed := ∅ }

/-- A lock state in which channel 0 owns resource 0 with the bit set in its
single machine-state frame. -/
def exOwnedLock : LockState (Fin 2) :=
  { resourceOwners := fun r => if r = 0 then some 0 else none
    machineStackOf := fun c => if c = 0 then [({0} : Finset ℕ)] else [(∅ : Finset ℕ)]
    toBeHomed := ∅ }

/-- A lock state in which channel 0 is inside a macro: it owns resources 0
(movement) and 1, its current frame records both bits, and its parent frame
records only bit 1 (inherited); some axes are still waiting to be homed. -/
def exMacroLock : LockState (Fin 2) :=
  { resourceOwners := fun r => if r ≤ 1 then some 0 else none
    machineStackOf := fun c =>
      if c = 0 then [({0, 1} : Finset ℕ), ({1} : Finset ℕ)] else [(∅ : Finset ℕ)]
    toBeHomed := {2} }

/-! ### Claim C1 -/

/-- Claim C1: for every sequence of lock operations (LockResource,
UnlockResource, GrabResource, UnlockAll) by distinct channels, at most one
channel owns a given resource at any instant; LockResource succeeds exactly
when the resource is free or already owned by the calling channel and
returns false otherwise leaving the owner table unchanged; UnlockResource
clears ownership exactly when the calling channel is the current owner and
otherwise leaves the state unchanged. -/
theorem C1_lock_protocol_mutual_exclusion {C : Type} [DecidableEq C]
    (s0 : LockState C) :
    (∀ (ops : List (LockOp C)) (r : ℕ) (c1 c2 : C),
        (runLockOps s0 ops).resourceOwners r = some c1 →
        (runLockOps s0 ops).resourceOwners r = some c2 → c1 = c2)
    ∧ (∀ (s : LockState C) (c : C) (r : ℕ),
        ((LockResource s c r).1 = true ↔
          (s.resourceOwners r = none ∨ s.resourceOwners r = some c))
        ∧ ((LockResource s c r).1 = false → (LockResource s c r).2 = s))
    ∧ (∀ (s : LockState C) (c : C) (r : ℕ),
        (s.resourceOwners r = some c →
          (UnlockResource s c r).resourceOwners r = none)
        ∧ (¬ s.resourceOwners r = some c → UnlockResource s c r = s)) := by
  refine ⟨?_, ?_, ?_⟩
  · intro ops r c1 c2 h1 h2
    rw [h1] at h2
    exact Option.some.inj h2
  · intro s c r
    exact ⟨LockResource_true_iff s c r, LockResource_false_eq s c r⟩
  · intro s c r
    exact ⟨UnlockResource_owner_none s c r, UnlockResource_skip s c r⟩

/-- Witness for C1: on concrete states, locking a free resource succeeds,
locking a resource owned by another channel fails and leaves the state
unchanged, and unlocking by the owner clears the owner-table entry. -/
theorem C1_lock_protocol_mutual_exclusion_witness :
    (LockResource exFreeLock (0 : Fin 2) 1).1 = true
    ∧ (LockResource exOwnedLock (1 : Fin 2) 0).2 = exOwnedLock
    ∧ (UnlockResource exOwnedLock (0 : Fin 2) 0).resourceOwners 0 = none := by
  refine ⟨?_, ?_, ?_⟩
  · exact ((C1_lock_protocol_mutual_exclusion exFreeLock).2.1 exFreeLock 0 1).1.mpr
      (Or.inl rfl)
  · exact ((C1_lock_protocol_mutual_exclusion exOwnedLock).2.1 exOwnedLock 1 0).2
      (by decide)
  · exact ((C1_lock_protocol_mutual_exclusion exOwnedLock).2.2 exOwnedLock 0 0).1
      (by decide)

/-! ### Claim C3 -/

/-- Counterexample to claim C3 as stated: channel 0 owns resource 0 with its
lock bit set; after channel 1 grabs resource 0, ownership is transferred,
but the old owner's lock bit is NOT cleared from its current machine-state
frame (the source comment says the bit is deliberately left set), contrary
to the claim. -/
theorem C3_counterexample :
    (GrabResource exOwnedLock (1 : Fin 2) 0).resourceOwners 0 = some 1
    ∧ 0 ∈ LatestLockedResources (GrabResource exOwnedLock (1 : Fin 2) 0) (0 : Fin 2) := by
  decide

/-- Claim C3 (amended): GrabResource by any channel always succeeds even when
the resource is owned by a different channel: it updates the owner table to
the grabbing channel and sets the grabbing channel's lock bit, while the old
owner's machine-state stack (and hence its lock bit and its macro-local
inherited bits) is left entirely unchanged. -/
theorem C3_grab_always_transfers {C : Type} [DecidableEq C]
    (s : LockState C) (c : C) (r : ℕ)
    (h : ¬ s.resourceOwners r = some c) (hne : s.machineStackOf c ≠ []) :
    (GrabResource s c r).resourceOwners r = some c
    ∧ r ∈ LatestLockedResources (GrabResource s c r) c
    ∧ (∀ c2 : C, c2 ≠ c → (GrabResource s c r).machineStackOf c2 = s.machineStackOf c2)
    ∧ (∀ r2 : ℕ, r2 ≠ r → (GrabResource s c r).resourceOwners r2 = s.resourceOwners r2) := by
  unfold GrabResource
  rw [if_neg h]
  refine ⟨?_, ?_, ?_, ?_⟩
  · rw [updateLatestFrame_resourceOwners]
    simp
  · rw [updateLatestFrame_latest]
    · exact Finset.mem_insert_self r _
    · exact hne
  · intro c2 hc2
    rw [updateLatestFrame_stack_ne _ _ _ _ hc2]
  · intro r2 hr2
    rw [updateLatestFrame_resourceOwners]
    simp [hr2]

/-- Witness for the amended C3 at a concrete state: channel 1 grabs resource
0 away from channel 0; ownership transfers, channel 1's bit is set, and
channel 0's frame stack is unchanged. -/
theorem C3_grab_always_transfers_witness :
    (GrabResource exOwnedLock (1 : Fin 2) 0).resourceOwners 0 = some 1
    ∧ 0 ∈ LatestLockedResources (GrabResource exOwnedLock (1 : Fin 2) 0) (1 : Fin 2)
    ∧ (GrabResource exOwnedLock (1 : Fin 2) 0).machineStackOf 0
        = exOwnedLock.machineStackOf 0 := by
  have h := C3_grab_always_transfers exOwnedLock (1 : Fin 2) 0 (by decide) (by decide)
  exact ⟨h.1, h.2.1, h.2.2.1 0 (by decide)⟩

/-! ### Claim C4 -/

/-- Claim C4: UnlockAll releases exactly those resources currently owned by
the calling channel whose bits are not set in the channel's parent
machine-state frame (owner-table entry becomes empty and the channel's lock
bit is cleared); resources whose bits are present in the parent frame, and
resources owned by others, keep their owner; and toBeHomed is cleared
exactly when the Movement resource is released. -/
theorem C4_UnlockAll_releases_except_inherited {C : Type} [DecidableEq C]
    (s : LockState C) (c : C) (n r : ℕ)
    (hr : r < n) (hne : s.machineStackOf c ≠ []) :
    ((s.resourceOwners r = some c ∧ r ∉ PreviousLockedResources s c) →
        (UnlockAll s c n).resourceOwners r = none
        ∧ r ∉ LatestLockedResources (UnlockAll s c n) c)
    ∧ (r ∈ PreviousLockedResources s c →
        (UnlockAll s c n).resourceOwners r = s.resourceOwners r)
    ∧ (¬ s.resourceOwners r = some c →
        (UnlockAll s c n).resourceOwners r = s.resourceOwners r)
    ∧ ((s.resourceOwners MoveResource = some c
          ∧ MoveResource ∉ PreviousLockedResources s c ∧ MoveResource < n) →
        (UnlockAll s c n).toBeHomed = ∅)
    ∧ (¬(s.resourceOwners MoveResource = some c
          ∧ MoveResource ∉ PreviousLockedResources s c ∧ MoveResource < n) →
        (UnlockAll s c n).toBeHomed = s.toBeHomed) := by
  refine ⟨?_, ?_, ?_, ?_, ?_⟩
  · rintro ⟨hown, hkeep⟩
    constructor
    · rw [UnlockAll_resourceOwners s c n r, if_pos ⟨hr, hown, hkeep⟩]
    · rw [UnlockAll_latest_mem s c n hne r]
      rintro ⟨-, hnot⟩
      exact hnot ⟨hr, hown, hkeep⟩
  · intro hkeep
    rw [UnlockAll_resourceOwners s c n r, if_neg]
    rintro ⟨-, -, hnot⟩
    exact hnot hkeep
  · intro hown
    rw [UnlockAll_resourceOwners s c n r, if_neg]
    rintro ⟨-, h2, -⟩
    exact hown h2
  · rintro ⟨hown, hkeep, hlt⟩
    rw [UnlockAll_toBeHomed s c n, if_pos ⟨hlt, hown, hkeep⟩]
  · intro hnot
    rw [UnlockAll_toBeHomed s c n, if_neg]
    rintro ⟨hlt, hown, hkeep⟩
    exact hnot ⟨hown, hkeep, hlt⟩

/-- Witness for C4 at a concrete macro state: channel 0 owns resources 0
(movement, acquired inside the macro) and 1 (inherited from the parent
frame); UnlockAll over two resources releases resource 0, clears its bit and
clears toBeHomed, while resource 1 keeps its owner. -/
theorem C4_UnlockAll_releases_except_inherited_witness :
    (UnlockAll exMacroLock (0 : Fin 2) 2).resourceOwners 0 = none
    ∧ 0 ∉ LatestLockedResources (UnlockAll exMacroLock (0 : Fin 2) 2) (0 : Fin 2)
    ∧ (UnlockAll exMacroLock (0 : Fin 2) 2).resourceOwners 1 = some 0
    ∧ (UnlockAll exMacroLock (0 : Fin 2) 2).toBeHomed = ∅ := by
  have h0 := C4_UnlockAll_releases_except_inherited exMacroLock (0 : Fin 2) 2 0
    (by decide) (by decide)
  have h1 := C4_UnlockAll_releases_except_inherited exMacroLock (0 : Fin 2) 2 1
    (by decide) (by decide)
  refine ⟨(h0.1 (by decide)).1, (h0.1 (by decide)).2, ?_, h0.2.2.2.1 (by decide)⟩
  have := h1.2.1 (by decide)
  rw [this]
  decide

/-! ## Move state and the publish handshake (GCodes.cpp lines 1411-1449,
2383-2429, 2453-2577, 2582-2598)

The shared `MoveState` record is modelled with its control fields.  The
numeric per-axis coordinate and arc-trigonometry fields updated by `ReadMove`
do not influence any field stated in the theorems below and are represented
only by the extruder `coords` array needed by `FinaliseMove`.  The write
trace returned by `FinaliseMove` lists, in program order, the move fields it
writes; the memory barrier of `NewMoveAvailable` is represented by the
position of the `segmentsLeft` write in that program order. -/

/-- The `SegmentedMoveState` enumeration. -/
inductive SegmentedMoveState where
  | inactive
  | active
  | aborted
  deriving DecidableEq

/-- Control fields of the shared `RawMove`/`MoveState` record. -/
structure MoveState where
  segmentsLeft : ℕ
  totalSegments : ℕ
  doingArcMove : Bool
  checkEndstops : Bool
  reduceAcceleration : Bool
  moveType : ℕ
  applyM220M221 : Bool
  canPauseAfter : Bool
  segMoveState : SegmentedMoveState
  filePos : Option ℕ
  coords : ℕ → ℚ

/-- The `GCodes` fields surrounding the shared move state that participate
in move publication and consumption. -/
structure MoveSys where
  moveState : MoveState
  moveFractionToSkip : ℚ
  segmentsLeftToStartAt : ℕ
  firstSegmentFractionToSkip : ℚ

/-- Move-state fields written during `FinaliseMove`/`NewMoveAvailable`, used
to record the program order of the writes. -/
inductive MoveField where
  | canPauseAfter
  | filePos
  | segMoveState
  | extruderCoords
  | segmentsLeftToStartAt
  | firstSegmentFractionToSkip
  | segmentsLeft
  deriving DecidableEq

/-- The write trace of a published multi-segment move. -/
def multiSegTrace : List MoveField :=
  [MoveField.canPauseAfter, MoveField.filePos, MoveField.segMoveState,
   MoveField.extruderCoords, MoveField.segmentsLeftToStartAt,
   MoveField.firstSegmentFractionToSkip, MoveField.segmentsLeft]

/-- The write trace of a published single-segment move. -/
def singleSegTrace : List MoveField :=
  [MoveField.canPauseAfter, MoveField.filePos, MoveField.segMoveState,
   MoveField.segmentsLeftToStartAt, MoveField.firstSegmentFractionToSkip,
   MoveField.segmentsLeft]

/-- GCodes::ClearMove (lines 2565-2577). -/
def ClearMove (sys : MoveSys) : MoveSys :=
  { sys with
      moveState := { sys.moveState with
        segmentsLeft := 0
        segMoveState := .inactive
        doingArcMove := false
        checkEndstops := false
        reduceAcceleration := false
        moveType := 0
        applyM220M221 := false }
      moveFractionToSkip := 0 }

/-- GCodes::NewMoveAvailable (lines 2592-2598): read `totalSegments`, then
(after the memory barrier) write `segmentsLeft` as the one and only write.
Returns the new state together with the write trace. -/
def NewMoveAvailable (sys : MoveSys) : MoveSys × List MoveField :=
  ({ sys with moveState :=
      { sys.moveState with segmentsLeft := sys.moveState.totalSegments } },
    [MoveField.segmentsLeft])

/-- Extruder-coordinate division performed for a segmented move (line 2407):
each extruder drive's coordinate becomes extrusion per segment.
`extruderDrives` models the set of logical drive indices
`ExtruderToLogicalDrive(0..numExtruders-1)`. -/
def divideExtrusion (ms : MoveState) (extruderDrives : Finset ℕ) : MoveState :=
  { ms with coords := fun d => if d ∈ extruderDrives
      then ms.coords d / (ms.totalSegments : ℚ) else ms.coords d }

/-- Segmentation bookkeeping of FinaliseMove for a multi-segment move whose
initial fraction is to be skipped (lines 2400-2417): mark the segmented move
active, divide the extrusion, and derive `segmentsLeftToStartAt` and
`firstSegmentFractionToSkip` from the rounded-down skipped segment count. -/
def segmentedSkipSetup (sys2 : MoveSys) (extruderDrives : Finset ℕ) : MoveSys :=
  { sys2 with
      moveState := { divideExtrusion sys2.moveState extruderDrives with
        segMoveState := .active }
      segmentsLeftToStartAt := sys2.moveState.totalSegments -
        (⌊(sys2.moveState.totalSegments : ℚ) * sys2.moveFractionToSkip⌋).toNat
      firstSegmentFractionToSkip :=
        sys2.moveFractionToSkip * (sys2.moveState.totalSegments : ℚ)
          - ((⌊(sys2.moveState.totalSegments : ℚ) * sys2.moveFractionToSkip⌋ : ℤ) : ℚ) }

/-- Segmentation bookkeeping of FinaliseMove for a multi-segment move with no
fraction to skip (lines 2400-2408 and 2424-2425). -/
def segmentedNoSkipSetup (sys2 : MoveSys) (extruderDrives : Finset ℕ) : MoveSys :=
  { sys2 with
      moveState := { divideExtrusion sys2.moveState extruderDrives with
        segMoveState := .active }
      segmentsLeftToStartAt := sys2.moveState.totalSegments
      firstSegmentFractionToSkip := sys2.moveFractionToSkip }

/-- Bookkeeping of FinaliseMove for a single-segment move (lines 2419-2425). -/
def singleSetup (sys2 : MoveSys) : MoveSys :=
  { sys2 with
      moveState := { sys2.moveState with segMoveState := .inactive }
      segmentsLeftToStartAt := sys2.moveState.totalSegments
      firstSegmentFractionToSkip := sys2.moveFractionToSkip }

/-- Branching part of GCodes::FinaliseMove (lines 2389-2428), operating on
the state `sys2` in which `canPauseAfter` and `filePos` have already been
written: unless the current object is cancelled, prepare the segmentation
bookkeeping and publish via `NewMoveAvailable`.  Returns the final state and
the program-ordered trace of move-field writes. -/
def finaliseMoveTail (sys2 : MoveSys) (extruderDrives : Finset ℕ)
    (cancelled : Bool) : MoveSys × List MoveField :=
  if cancelled then (sys2, [MoveField.canPauseAfter, MoveField.filePos])
  else if 1 < sys2.moveState.totalSegments then
    if sys2.moveFractionToSkip ≠ 0 then
      ((NewMoveAvailable (segmentedSkipSetup sys2 extruderDrives)).1, multiSegTrace)
    else
      ((NewMoveAvailable (segmentedNoSkipSetup sys2 extruderDrives)).1, multiSegTrace)
  else
    ((NewMoveAvailable (singleSetup sys2)).1, singleSegTrace)

/-- GCodes::FinaliseMove (lines 2383-2429): set `canPauseAfter` (false for
arc moves and endstop-checking moves) and `filePos`, then run the
segmentation/publication tail.  `isFileChannel` models `&gb == fileGCode`,
`gbFilePos` models `gb.GetFilePosition()` and `cancelled` models
`buildObjects.IsCurrentObjectCancelled()`. -/
def FinaliseMove (sys : MoveSys) (isFileChannel : Bool) (gbFilePos : Option ℕ)
    (cancelled : Bool) (extruderDrives : Finset ℕ) : MoveSys × List MoveField :=
  finaliseMoveTail
    { sys with moveState := { sys.moveState with
        canPauseAfter := !sys.moveState.checkEndstops && !sys.moveState.doingArcMove
        filePos := if isFileChannel then gbFilePos else none } }
    extruderDrives cancelled

/-- GCodes::LockMovementAndWaitForStandstill (lines 1411-1449): lock the
movement resource, then return false (retry) while a move is still in
flight (`segmentsLeft != 0`), while the Move subsystem is still executing
(`waitingForAllMovesFinished` false models
`reprap.GetMove().WaitingForAllMovesFinished()` returning false) or while
the deferred command queue has not caught up (`codeQueueIdle` models
`&gb == queuedGCode || IsCodeQueueIdle()`). -/
def LockMovementAndWaitForStandstill {C : Type} [DecidableEq C]
    (s : LockState C) (c : C) (segmentsLeft : ℕ)
    (waitingForAllMovesFinished : Bool) (codeQueueIdle : Bool) :
    Bool × LockState C :=
  let lr := LockResource s c MoveResource
  if lr.1 = false then (false, lr.2)
  else if segmentsLeft ≠ 0 then (false, lr.2)
  else if !waitingForAllMovesFinished then (false, lr.2)
  else if !codeQueueIdle then (false, lr.2)
  else (true, lr.2)

/-- Loop body of GCodes::ReadMove (lines 2460-2559), recursing on the
`continue` path that skips already-printed segments when resuming.  The
returned `Option MoveState` is the copy handed to the Move subsystem (`m`),
or `none` when the segmented move is aborted because an intermediate
position fails the kinematics limit check (`limitOk` models the
`LimitPosition` call on the segment end point). -/
def ReadMoveLoop (limitOk : Bool) : ℕ → MoveSys → Option MoveState × MoveSys
  | 0, sys => (none, sys)
  | fuel + 1, sys =>
    let m := sys.moveState
    if m.segmentsLeft = 1 then
      let mOut := if m.doingArcMove then { m with canPauseAfter := true } else m
      (some mOut, ClearMove sys)
    else
      if sys.segmentsLeftToStartAt < m.segmentsLeft then
        ReadMoveLoop limitOk fuel
          { sys with moveState := { m with segmentsLeft := m.segmentsLeft - 1 } }
      else if !limitOk then
        (none, { sys with moveState :=
          { m with segMoveState := .aborted, doingArcMove := false, segmentsLeft := 0 } })
      else
        (some m, { sys with moveState := { m with segmentsLeft := m.segmentsLeft - 1 } })

/-- GCodes::ReadMove (lines 2453-2563): nothing to do when `segmentsLeft`
is 0; otherwise run the segment loop (which terminates because every
`continue` iteration decrements `segmentsLeft`). -/
def ReadMove (sys : MoveSys) (limitOk : Bool) : Option MoveState × MoveSys :=
  if sys.moveState.segmentsLeft = 0 then (none, sys)
  else ReadMoveLoop limitOk sys.moveState.segmentsLeft sys

/-- A concrete move system holding a pending 4-segment arc move, used to
instantiate hypotheses. -/
def exMoveSys : MoveSys :=
  { moveState :=
    { segmentsLeft := 0
      totalSegments := 4
      doingArcMove := true
      checkEndstops := false
      reduceAcceleration := false
      moveType := 0
      applyM220M221 := false
      canPauseAfter := true
      segMoveState := .inactive
      filePos := none
      coords := fun _ => 6 }
    moveFractionToSkip := 0
    segmentsLeftToStartAt := 0
    firstSegmentFractionToSkip := 0 }

/-- In every non-cancelled run of the FinaliseMove tail, the write trace
ends with the `segmentsLeft` publish, `segmentsLeft` is written nowhere
earlier, and the published value is the pending move's `totalSegments`. -/
lemma finaliseMoveTail_publish (sys2 : MoveSys) (ed : Finset ℕ) :
    (finaliseMoveTail sys2 ed false).2.getLast? = some MoveField.segmentsLeft
    ∧ (∀ f ∈ (finaliseMoveTail sys2 ed false).2.dropLast,
        f ≠ MoveField.segmentsLeft)
    ∧ (finaliseMoveTail sys2 ed false).1.moveState.segmentsLeft
        = sys2.moveState.totalSegments := by
  unfold finaliseMoveTail
  rw [if_neg (show ¬(false = true) by decide)]
  by_cases h1 : 1 < sys2.moveState.totalSegments
  · rw [if_pos h1]
    by_cases h2 : sys2.moveFractionToSkip ≠ 0
    · rw [if_pos h2]
      refine ⟨?_, ?_, rfl⟩
      · show multiSegTrace.getLast? = some MoveField.segmentsLeft
        decide
      · show ∀ f ∈ multiSegTrace.dropLast, f ≠ MoveField.segmentsLeft
        decide
    · rw [if_neg h2]
      refine ⟨?_, ?_, rfl⟩
      · show multiSegTrace.getLast? = some MoveField.segmentsLeft
        decide
      · show ∀ f ∈ multiSegTrace.dropLast, f ≠ MoveField.segmentsLeft
        decide
  · rw [if_neg h1]
    refine ⟨?_, ?_, rfl⟩
    · show singleSegTrace.getLast? = some MoveField.segmentsLeft
      decide
    · show ∀ f ∈ singleSegTrace.dropLast, f ≠ MoveField.segmentsLeft
      decide

/-- The FinaliseMove tail never changes `canPauseAfter`. -/
lemma finaliseMoveTail_canPauseAfter (sys2 : MoveSys) (ed : Finset ℕ)
    (cancelled : Bool) :
    (finaliseMoveTail sys2 ed cancelled).1.moveState.canPauseAfter
      = sys2.moveState.canPauseAfter := by
  unfold finaliseMoveTail NewMoveAvailable segmentedSkipSetup
    segmentedNoSkipSetup singleSetup divideExtrusion
  split_ifs <;> rfl

/-! ### Claim C2 -/

/-- Claim C2: in every non-cancelled run of FinaliseMove the write of
`segmentsLeft` (the publish performed by NewMoveAvailable after the memory
barrier) is the last write in program order — it is the final element of the
write trace and occurs nowhere earlier — and it sets `segmentsLeft` to the
pending move's `totalSegments`; moreover LockMovementAndWaitForStandstill
returns false (retry) whenever `segmentsLeft` is nonzero, so a new move is
never begun while a move is in flight. -/
theorem C2_move_publish_is_last_write :
    (∀ (sys : MoveSys) (isFileChannel : Bool) (gbFilePos : Option ℕ)
        (extruderDrives : Finset ℕ),
        (FinaliseMove sys isFileChannel gbFilePos false extruderDrives).2.getLast?
            = some MoveField.segmentsLeft
        ∧ (∀ f ∈ (FinaliseMove sys isFileChannel gbFilePos false
              extruderDrives).2.dropLast, f ≠ MoveField.segmentsLeft)
        ∧ (FinaliseMove sys isFileChannel gbFilePos false
              extruderDrives).1.moveState.segmentsLeft
            = sys.moveState.totalSegments)
    ∧ (∀ (C : Type) [DecidableEq C] (s : LockState C) (c : C)
        (segmentsLeft : ℕ) (wfin qidle : Bool), segmentsLeft ≠ 0 →
        (LockMovementAndWaitForStandstill s c segmentsLeft wfin qidle).1 = false) := by
  constructor
  · intro sys isFileChannel gbFilePos extruderDrives
    unfold FinaliseMove
    exact ⟨(finaliseMoveTail_publish _ _).1, (finaliseMoveTail_publish _ _).2.1,
      (finaliseMoveTail_publish _ _).2.2⟩
  · intro C _ s c segmentsLeft wfin qidle h
    unfold LockMovementAndWaitForStandstill
    split_ifs <;> simp [ite_self]

/-- Witness for C2: on a concrete pending move the last trace entry is the
`segmentsLeft` publish, and a concrete standstill request with a move in
flight (three segments left) reports retry. -/
theorem C2_move_publish_is_last_write_witness :
    (FinaliseMove exMoveSys true (some 5) false {3}).2.getLast?
        = some MoveField.segmentsLeft
    ∧ (LockMovementAndWaitForStandstill exFreeLock (0 : Fin 2) 3 true true).1
        = false := by
  refine ⟨(C2_move_publish_is_last_write.1 exMoveSys true (some 5) {3}).1, ?_⟩
  exact C2_move_publish_is_last_write.2 (Fin 2) exFreeLock 0 3 true true (by decide)

/-! ### Claim C10 -/

/-- Claim C10: every committed arc move is published with
`canPauseAfter = false`, the copy that ReadMove hands out for an arc move
with exactly one segment remaining has `canPauseAfter = true`, and the copy
handed out for any earlier segment (two or more segments remaining, not in
the resume-skip phase) is the unmodified move state, whose `canPauseAfter`
is still false for an arc — so a pause is permitted only after the final
segment of an arc. -/
theorem C10_arc_pause_only_after_final_segment :
    (∀ (sys : MoveSys) (isFileChannel cancelled : Bool) (gbFilePos : Option ℕ)
        (extruderDrives : Finset ℕ),
        sys.moveState.doingArcMove = true →
        (FinaliseMove sys isFileChannel gbFilePos cancelled
            extruderDrives).1.moveState.canPauseAfter = false)
    ∧ (∀ (sys : MoveSys) (limitOk : Bool),
        sys.moveState.segmentsLeft = 1 → sys.moveState.doingArcMove = true →
        (ReadMove sys limitOk).1 = some { sys.moveState with canPauseAfter := true })
    ∧ (∀ (sys : MoveSys) (limitOk : Bool),
        2 ≤ sys.moveState.segmentsLeft →
        sys.moveState.segmentsLeft ≤ sys.segmentsLeftToStartAt →
        limitOk = true →
        (ReadMove sys limitOk).1 = some sys.moveState) := by
  refine ⟨?_, ?_, ?_⟩
  · intro sys isFileChannel cancelled gbFilePos extruderDrives harc
    unfold FinaliseMove
    rw [finaliseMoveTail_canPauseAfter]
    show (!sys.moveState.checkEndstops && !sys.moveState.doingArcMove) = false
    rw [harc]
    simp
  · intro sys limitOk hseg harc
    unfold ReadMove
    rw [if_neg (by rw [hseg]; exact one_ne_zero)]
    rw [hseg]
    unfold ReadMoveLoop
    rw [if_pos hseg, if_pos harc]
  · intro sys limitOk hseg hstart hlim
    obtain ⟨k, hk⟩ : ∃ k, sys.moveState.segmentsLeft = k + 2 :=
      ⟨sys.moveState.segmentsLeft - 2, by omega⟩
    unfold ReadMove
    rw [if_neg (by omega)]
    rw [hk]
    unfold ReadMoveLoop
    rw [if_neg (by omega), if_neg (by omega), hlim]
    simp

/-- Witness for C10: the concrete arc move `exMoveSys` is published with
`canPauseAfter = false`; with one segment left the handed-out copy allows
pausing; with four segments left it does not. -/
theorem C10_arc_pause_only_after_final_segment_witness :
    (FinaliseMove exMoveSys true (some 5) false {3}).1.moveState.canPauseAfter = false
    ∧ (ReadMove { exMoveSys with
          moveState := { exMoveSys.moveState with segmentsLeft := 1 } } true).1
        = some { exMoveSys.moveState with segmentsLeft := 1, canPauseAfter := true }
    ∧ (ReadMove { exMoveSys with
          moveState := { exMoveSys.moveState with segmentsLeft := 4 }
          segmentsLeftToStartAt := 4 } true).1
        = some { exMoveSys.moveState with segmentsLeft := 4 } := by
  refine ⟨C10_arc_pause_only_after_final_segment.1 exMoveSys true false (some 5) {3} rfl,
    C10_arc_pause_only_after_final_segment.2.1 _ true rfl rfl,
    C10_arc_pause_only_after_final_segment.2.2 _ true (by decide) (by decide) rfl⟩

/-! ## Straight-move segmentation (GCodes.cpp lines 1885-2011)

Machine floats are modelled as rationals.  `fastSqrtf` is modelled by
`ratSqrt`, which is exact on every rational whose numerator and denominator
are perfect squares — which covers every input used in the theorems below.
`lrintf` rounds to the nearest integer with ties to even, the default
floating-point rounding mode. -/

/-- The fsquare helper of the source. -/
def fsquare (x : ℚ) : ℚ := x * x

/-- Model of fastSqrtf: the integer square root of the numerator over the
integer square root of the denominator, exact on perfect squares — which
covers every input used below. -/
def ratSqrt (q : ℚ) : ℚ := Rat.sqrt q

lemma ratSqrt_sq (x : ℚ) (hx : 0 ≤ x) : ratSqrt (x * x) = x := by
  rw [ratSqrt, Rat.sqrt_eq, abs_of_nonneg hx]

lemma ratSqrt_zero : ratSqrt 0 = 0 := by
  have h := ratSqrt_sq 0 le_rfl
  rwa [mul_zero] at h

/-- Model of lrintf: round to nearest, ties to even. -/
def lrintf (x : ℚ) : ℤ :=
  if x - ⌊x⌋ < 1/2 then ⌊x⌋
  else if 1/2 < x - ⌊x⌋ then ⌊x⌋ + 1
  else if ⌊x⌋ % 2 = 0 then ⌊x⌋ else ⌊x⌋ + 1

/-- Inputs of the `totalSegments` computation of GCodes::DoStraightMove.
`useSegmentation`, `useZSegmentation` and `useG0Segmentation` are the fields
of the kinematics `SegmentationType`; `reciprocalMinSegmentLength`,
`segmentsPerSecond`, `usingMesh` and `meshMinSegments` model the external
kinematics/height-map collaborators; axes X, Y, Z are indices 0, 1, 2. -/
structure StraightMoveIn where
  moveType : ℕ
  axesMentioned : Finset ℕ
  useSegmentation : Bool
  useZSegmentation : Bool
  useG0Segmentation : Bool
  simulationModeIsNormal : Bool
  hasPositiveExtrusion : Bool
  isCoordinated : Bool
  machineIsFff : Bool
  currentUserPosition : ℕ → ℚ
  initialUserPosition : ℕ → ℚ
  feedRate : ℚ
  stepClockRate : ℚ
  reciprocalMinSegmentLength : ℚ
  segmentsPerSecond : ℚ
  usingMesh : Bool
  meshMinSegments : ℕ

/-- The XY (optionally Z) squared path length of a straight move
(lines 1983-1987). -/
def straightMoveLengthSquared (m : StraightMoveIn) : ℚ :=
  fsquare (m.currentUserPosition 0 - m.initialUserPosition 0)
    + fsquare (m.currentUserPosition 1 - m.initialUserPosition 1)
    + (if m.useZSegmentation
        then fsquare (m.currentUserPosition 2 - m.initialUserPosition 2) else 0)

/-- The kinematics segment count (line 1990): the nearest integer to the
smaller of path-length/min-segment-length and move-time times
segments-per-second, clamped to at least 1. -/
def kinematicSegments (m : StraightMoveIn) : ℕ :=
  (max 1 (lrintf (min
    (ratSqrt (straightMoveLengthSquared m) * m.reciprocalMinSegmentLength)
    (ratSqrt (straightMoveLengthSquared m) / (m.feedRate * m.stepClockRate)
      * m.segmentsPerSecond)))).toNat

/-- Segment count before mesh adjustment (lines 1976-1995). -/
def baseSegments (m : StraightMoveIn) : ℕ :=
  if m.useSegmentation ∧ ¬ m.simulationModeIsNormal
      ∧ (m.hasPositiveExtrusion ∨ m.isCoordinated ∨ m.useG0Segmentation)
  then kinematicSegments m
  else 1

/-- The committed `totalSegments` of GCodes::DoStraightMove
(lines 1887-2011): 1 for raw motor moves and for moves mentioning no axes;
otherwise the kinematics segment count, raised to the mesh minimum when mesh
bed compensation applies. -/
def straightMoveTotalSegments (m : StraightMoveIn) : ℕ :=
  if m.moveType ≠ 0 then 1
  else if m.axesMentioned = ∅ then 1
  else if m.usingMesh ∧ (m.isCoordinated ∨ m.machineIsFff) then
    max (baseSegments m) (max 1 m.meshMinSegments)
  else baseSegments m

/-- A concrete straight-move input of path length 2.4 with minimum segment
length 1, on a segmenting kinematics with mesh compensation off. -/
def exStraightIn : StraightMoveIn :=
  { moveType := 0
    axesMentioned := {0}
    useSegmentation := true
    useZSegmentation := false
    useG0Segmentation := false
    simulationModeIsNormal := false
    hasPositiveExtrusion := false
    isCoordinated := true
    machineIsFff := true
    currentUserPosition := fun a => if a = 0 then 12/5 else 0
    initialUserPosition := fun _ => 0
    feedRate := 1/100
    stepClockRate := 1
    reciprocalMinSegmentLength := 1
    segmentsPerSecond := 1
    usingMesh := false
    meshMinSegments := 0 }

/-! ### Claim C5 -/

/-- Counterexample to claim C5 as stated: a straight move of path length 2.4
with maximum segment length 1 (and a time bound that does not bite) commits
2 segments, because the source rounds `lrintf`-style to the nearest integer,
whereas ceil(L/S) = 3 as the claim requires. -/
theorem C5_counterexample :
    straightMoveTotalSegments exStraightIn = 2
    ∧ (⌈ratSqrt (straightMoveLengthSquared exStraightIn)
        * exStraightIn.reciprocalMinSegmentLength⌉ : ℤ) = 3 := by
  have hlen : straightMoveLengthSquared exStraightIn = (12/5 : ℚ) * (12/5) := by
    unfold straightMoveLengthSquared exStraightIn fsquare
    norm_num
  have hsqrt : ratSqrt (straightMoveLengthSquared exStraightIn) = 12/5 := by
    rw [hlen, ratSqrt_sq _ (by norm_num)]
  have hfloor : (⌊(12 : ℚ)/5⌋ : ℤ) = 2 := by
    rw [Int.floor_eq_iff]
    constructor <;> norm_num
  have hlr : lrintf ((12 : ℚ)/5) = 2 := by
    unfold lrintf
    rw [hfloor, if_pos (by norm_num)]
  constructor
  · unfold straightMoveTotalSegments
    rw [if_neg (show ¬(exStraightIn.moveType ≠ 0) by decide),
      if_neg (show ¬(exStraightIn.axesMentioned = ∅) by decide),
      if_neg (by rintro ⟨h, -⟩; exact Bool.noConfusion h)]
    unfold baseSegments
    rw [if_pos ⟨rfl, by exact Bool.noConfusion, Or.inr (Or.inl rfl)⟩]
    unfold kinematicSegments
    rw [hsqrt]
    rw [show exStraightIn.reciprocalMinSegmentLength = 1 from rfl,
      show exStraightIn.feedRate = 1/100 from rfl,
      show exStraightIn.stepClockRate = 1 from rfl,
      show exStraightIn.segmentsPerSecond = 1 from rfl]
    rw [show ((12:ℚ)/5 * 1) = 12/5 by norm_num,
      show ((12:ℚ)/5 / (1/100 * 1) * 1) = 240 by norm_num,
      min_eq_left (by norm_num), hlr]
    rfl
  · rw [hsqrt, show exStraightIn.reciprocalMinSegmentLength = 1 from rfl,
      show ((12:ℚ)/5 * 1) = 12/5 by norm_num, Int.ceil_eq_iff]
    constructor <;> norm_num

/-- Claim C5 (amended): a straight move that mentions zero axes commits
exactly 1 segment; the committed count is always at least 1; and on a
segmenting kinematics (not simulating, with extrusion/coordination/G0
segmentation applicable, mesh compensation off) the committed count equals
the nearest integer (ties to even) of min(L/S, T*segmentsPerSecond) clamped
to at least 1 — rounding to nearest rather than the ceiling the claim
stated. -/
theorem C5_straight_move_segments (m : StraightMoveIn) :
    (m.axesMentioned = ∅ → straightMoveTotalSegments m = 1)
    ∧ 1 ≤ straightMoveTotalSegments m
    ∧ (m.moveType = 0 → m.axesMentioned ≠ ∅ →
        m.useSegmentation = true → m.simulationModeIsNormal = false →
        (m.hasPositiveExtrusion = true ∨ m.isCoordinated = true
          ∨ m.useG0Segmentation = true) →
        m.usingMesh = false →
        straightMoveTotalSegments m =
          (max 1 (lrintf (min
            (ratSqrt (straightMoveLengthSquared m) * m.reciprocalMinSegmentLength)
            (ratSqrt (straightMoveLengthSquared m) / (m.feedRate * m.stepClockRate)
              * m.segmentsPerSecond)))).toNat) := by
  have hbase : 1 ≤ baseSegments m := by
    unfold baseSegments kinematicSegments
    split_ifs with h
    · have h1 : (1 : ℤ) ≤ max 1 (lrintf (min
          (ratSqrt (straightMoveLengthSquared m) * m.reciprocalMinSegmentLength)
          (ratSqrt (straightMoveLengthSquared m) / (m.feedRate * m.stepClockRate)
            * m.segmentsPerSecond))) := le_max_left _ _
      calc (1 : ℕ) = (1 : ℤ).toNat := rfl
        _ ≤ _ := Int.toNat_le_toNat h1
    · exact le_refl 1
  refine ⟨?_, ?_, ?_⟩
  · intro h
    unfold straightMoveTotalSegments
    by_cases h1 : m.moveType ≠ 0
    · rw [if_pos h1]
    · rw [if_neg h1, if_pos h]
  · unfold straightMoveTotalSegments
    split_ifs with h1 h2 h3
    · exact le_refl 1
    · exact le_refl 1
    · exact le_trans hbase (le_max_left _ _)
    · exact hbase
  · intro hmt hax hseg hsim hg hmesh
    unfold straightMoveTotalSegments
    rw [if_neg (by simp [hmt]), if_neg hax,
      if_neg (by rw [hmesh]; rintro ⟨h, -⟩; exact Bool.noConfusion h)]
    unfold baseSegments
    rw [if_pos ⟨hseg, by rw [hsim]; exact Bool.noConfusion, hg⟩]
    rfl

/-- Witness for the amended C5: the zero-axes variant of the concrete input
commits 1 segment, and the concrete segmenting input commits the rounded
clamped count. -/
theorem C5_straight_move_segments_witness :
    straightMoveTotalSegments { exStraightIn with axesMentioned := (∅ : Finset ℕ) } = 1
    ∧ straightMoveTotalSegments exStraightIn =
        (max 1 (lrintf (min
          (ratSqrt (straightMoveLengthSquared exStraightIn)
            * exStraightIn.reciprocalMinSegmentLength)
          (ratSqrt (straightMoveLengthSquared exStraightIn)
            / (exStraightIn.feedRate * exStraightIn.stepClockRate)
            * exStraightIn.segmentsPerSecond)))).toNat := by
  refine ⟨(C5_straight_move_segments _).1 rfl,
    (C5_straight_move_segments exStraightIn).2.2 rfl (by decide) rfl rfl
      (Or.inr (Or.inl rfl)) rfl⟩

/-! ## Radius-specified arc centre computation (GCodes.cpp lines 2090-2137)

The R-parameter branch of GCodes::DoArcMove, over exact rationals.  The
float literal 0.02 of the tolerance check is the rational 1/50. -/

/-- Result of the radius branch: an error message or the computed
half-chord ratio hDivD together with the derived I and J parameters. -/
inductive ArcRadiusResult where
  | errZeroDistance
  | errRadiusTooSmall
  | ok (hDivD iParam jParam : ℚ)
  deriving DecidableEq

/-- The G2/G3 short/long arc sign convention (lines 2128-2134): negate
hDivD when (clockwise and R negative) or (anticlockwise and R positive). -/
def applySignConvention (clockwise : Bool) (rParam h0 : ℚ) : ℚ :=
  if (clockwise ∧ rParam < 0) ∨ (¬ clockwise ∧ 0 < rParam) then -h0 else h0

/-- Build the ok result from hDivD (lines 2135-2136):
iParam = d0/2 + d1*hDivD and jParam = d1/2 - d0*hDivD. -/
def arcOkFrom (deltaAxis0 deltaAxis1 hDivD : ℚ) : ArcRadiusResult :=
  .ok hDivD (deltaAxis0 / 2 + deltaAxis1 * hDivD)
    (deltaAxis1 / 2 - deltaAxis0 * hDivD)

/-- The R-parameter branch of GCodes::DoArcMove (lines 2090-2137): reject a
zero start/end distance; when the discriminant hSquared is nonnegative take
its square root; when it is negative beyond the 1 percent radius tolerance
(hSquared < -0.02*R*R) report "radius is too small to reach endpoint";
otherwise clamp hDivD to zero. -/
def radiusArcParams (rParam deltaAxis0 deltaAxis1 : ℚ) (clockwise : Bool) :
    ArcRadiusResult :=
  if fsquare deltaAxis0 + fsquare deltaAxis1 = 0 then .errZeroDistance
  else if 0 ≤ fsquare rParam - (fsquare deltaAxis0 + fsquare deltaAxis1) / 4 then
    arcOkFrom deltaAxis0 deltaAxis1 (applySignConvention clockwise rParam
      (ratSqrt ((fsquare rParam - (fsquare deltaAxis0 + fsquare deltaAxis1) / 4)
        / (fsquare deltaAxis0 + fsquare deltaAxis1))))
  else if fsquare rParam - (fsquare deltaAxis0 + fsquare deltaAxis1) / 4
      < -(1/50) * fsquare rParam then
    .errRadiusTooSmall
  else arcOkFrom deltaAxis0 deltaAxis1 (applySignConvention clockwise rParam 0)

lemma applySignConvention_zero (cw : Bool) (r : ℚ) :
    applySignConvention cw r 0 = 0 := by
  unfold applySignConvention
  split_ifs <;> simp

/-! ### Claim C6 -/

/-- Counterexample to claim C6 as stated: with R = 1 and chord (2, 1/10),
dSquared = 4.01 exceeds 4*R*R, so the claim demands the "radius is too
small" error; but the discriminant -1/400 is within the 1 percent tolerance
(not below -0.02*R*R = -1/50), so the source clamps hDivD to 0 and succeeds. -/
theorem C6_counterexample :
    4 * fsquare (1 : ℚ) < fsquare (2 : ℚ) + fsquare ((1 : ℚ)/10)
    ∧ radiusArcParams 1 2 (1/10) false = ArcRadiusResult.ok 0 1 (1/20) := by
  constructor
  · unfold fsquare
    norm_num
  · unfold radiusArcParams
    rw [if_neg (by unfold fsquare; norm_num),
      if_neg (by unfold fsquare; norm_num),
      if_neg (by unfold fsquare; norm_num),
      applySignConvention_zero]
    unfold arcOkFrom
    norm_num

/-- Claim C6 (amended): for a radius-specified arc with nonzero chord, the
"radius is too small to reach endpoint" error is returned exactly when the
discriminant hSquared = R*R - dSquared/4 is below the 1 percent tolerance
-0.02*R*R (not already when dSquared exceeds 4*R*R); when dSquared equals
4*R*R exactly (a 180-degree arc) the move succeeds with hDivD = 0; and a
negative discriminant within the tolerance is clamped to hDivD = 0 rather
than rejected. -/
theorem C6_radius_arc_tolerance (r d0 d1 : ℚ) (cw : Bool)
    (hd : fsquare d0 + fsquare d1 ≠ 0) :
    (fsquare r - (fsquare d0 + fsquare d1) / 4 < -(1/50) * fsquare r →
        radiusArcParams r d0 d1 cw = ArcRadiusResult.errRadiusTooSmall)
    ∧ (fsquare d0 + fsquare d1 = 4 * fsquare r →
        radiusArcParams r d0 d1 cw = arcOkFrom d0 d1 0)
    ∧ (fsquare r - (fsquare d0 + fsquare d1) / 4 < 0 →
        -(1/50) * fsquare r ≤ fsquare r - (fsquare d0 + fsquare d1) / 4 →
        radiusArcParams r d0 d1 cw = arcOkFrom d0 d1 0) := by
  refine ⟨?_, ?_, ?_⟩
  · intro herr
    have hrsq : (0 : ℚ) ≤ fsquare r := mul_self_nonneg r
    have hneg : ¬ (0 ≤ fsquare r - (fsquare d0 + fsquare d1) / 4) := by
      intro hge
      have : -(1/50) * fsquare r ≤ 0 := by nlinarith
      linarith
    unfold radiusArcParams
    rw [if_neg hd, if_neg hneg, if_pos herr]
  · intro heq
    have hzero : fsquare r - (fsquare d0 + fsquare d1) / 4 = 0 := by
      rw [heq]; ring
    unfold radiusArcParams
    rw [if_neg hd, if_pos (by rw [hzero]), hzero, zero_div, ratSqrt_zero,
      applySignConvention_zero]
  · intro hneg htol
    unfold radiusArcParams
    rw [if_neg hd, if_neg (by linarith), if_neg (by linarith),
      applySignConvention_zero]

/-- Witness for the amended C6: with R = 1 a chord of length 3 is truly
unreachable (error), and a chord of length exactly 2 gives the 180-degree
arc with hDivD = 0. -/
theorem C6_radius_arc_tolerance_witness :
    radiusArcParams 1 3 0 false = ArcRadiusResult.errRadiusTooSmall
    ∧ radiusArcParams 1 2 0 true = arcOkFrom 2 0 0 := by
  refine ⟨(C6_radius_arc_tolerance 1 3 0 false ?_).1 ?_,
    (C6_radius_arc_tolerance 1 2 0 true ?_).2.1 ?_⟩
  · unfold fsquare; norm_num
  · unfold fsquare; norm_num
  · unfold fsquare; norm_num
  · unfold fsquare; norm_num

/-! ## Arc angle computation (GCodes.cpp lines 2165-2217 and 2335-2348)

The transcendental part of GCodes::DoArcMove, modelled over the reals.
`atan2` is the C library two-argument arctangent. -/

/-- The two-argument arctangent, following the C library convention:
atan2(y, x) is the angle of the point (x, y), in (-pi, pi], with
atan2(0, 0) = 0. -/
noncomputable def atan2 (y x : ℝ) : ℝ :=
  if 0 < x then Real.arctan (y / x)
  else if x < 0 ∧ 0 ≤ y then Real.arctan (y / x) + Real.pi
  else if x < 0 ∧ y < 0 then Real.arctan (y / x) - Real.pi
  else if x = 0 ∧ 0 < y then Real.pi / 2
  else if x = 0 ∧ y < 0 then -(Real.pi / 2)
  else 0

/-- The user-space arc centre (line 2168): start point plus the I/J offsets. -/
def arcUserCentre (initC0 initC1 iParam jParam : ℝ) : ℝ × ℝ :=
  (initC0 + iParam, initC1 + jParam)

/-- The final angle (line 2215): the angle of the end point about the
centre. -/
noncomputable def arcFinalTheta (initC0 initC1 endC0 endC1 iParam jParam : ℝ) : ℝ :=
  atan2 (endC1 - (initC1 + jParam)) (endC0 - (initC0 + iParam))

/-- The initial `arcCurrentAngle` (line 2217): the angle of the start point
about the centre, which is atan2(-J, -I). -/
noncomputable def arcStartAngle (iParam jParam : ℝ) : ℝ :=
  atan2 (-jParam) (-iParam)

/-- The signed angle difference before normalization (line 2343). -/
noncomputable def arcRawAngle (initC0 initC1 endC0 endC1 iParam jParam : ℝ)
    (clockwise : Bool) : ℝ :=
  if clockwise then
    arcStartAngle iParam jParam - arcFinalTheta initC0 initC1 endC0 endC1 iParam jParam
  else
    arcFinalTheta initC0 initC1 endC0 endC1 iParam jParam - arcStartAngle iParam jParam

/-- The total swept angle `totalArc` (lines 2176 and 2335-2348): two pi for
a whole circle (start equals end), otherwise the raw difference brought
into [0, 2 pi) by adding two pi when negative. -/
noncomputable def arcTotalAngle (initC0 initC1 endC0 endC1 iParam jParam : ℝ)
    (clockwise : Bool) : ℝ :=
  if initC0 = endC0 ∧ initC1 = endC1 then 2 * Real.pi
  else if arcRawAngle initC0 initC1 endC0 endC1 iParam jParam clockwise < 0 then
    arcRawAngle initC0 initC1 endC0 endC1 iParam jParam clockwise + 2 * Real.pi
  else arcRawAngle initC0 initC1 endC0 endC1 iParam jParam clockwise

lemma atan2_zero_pos (x : ℝ) (hx : 0 < x) : atan2 0 x = 0 := by
  unfold atan2
  rw [if_pos hx, zero_div, Real.arctan_zero]

lemma atan2_zero_neg (x : ℝ) (hx : x < 0) : atan2 0 x = Real.pi := by
  unfold atan2
  rw [if_neg (lt_asymm hx), if_pos ⟨hx, le_refl (0 : ℝ)⟩, zero_div,
    Real.arctan_zero, zero_add]

/-! ### Claim C7 -/

/-- Claim C7: for the arc move from (0,0) to (10,0) with I = 5, J = 0 and
clockwise = false, the computed centre is (5,0) and the total swept angle
is pi; and for any arc whose start point equals its end point with nonzero
I/J, the total swept angle is two pi. -/
theorem C7_arc_semicircle_whole_circle (c0 c1 iParam jParam : ℝ) (cw : Bool)
    (hij : ¬(iParam = 0 ∧ jParam = 0)) :
    (arcUserCentre 0 0 5 0 = (5, 0)
      ∧ arcTotalAngle 0 0 10 0 5 0 false = Real.pi)
    ∧ arcTotalAngle c0 c1 c0 c1 iParam jParam cw = 2 * Real.pi := by
  constructor
  · constructor
    · unfold arcUserCentre
      norm_num
    · have hraw : arcRawAngle 0 0 10 0 5 0 false = -Real.pi := by
        unfold arcRawAngle
        rw [if_neg (show ¬(false = true) by decide)]
        unfold arcFinalTheta arcStartAngle
        rw [show (0 : ℝ) - (0 + 0) = 0 by norm_num,
          show (10 : ℝ) - (0 + 5) = 5 by norm_num,
          show -(0 : ℝ) = 0 by norm_num,
          atan2_zero_pos 5 (by norm_num),
          atan2_zero_neg (-5) (by norm_num)]
        ring
      unfold arcTotalAngle
      rw [if_neg (by rintro ⟨h, -⟩; norm_num at h), hraw,
        if_pos (by linarith [Real.pi_pos])]
      ring
  · unfold arcTotalAngle
    rw [if_pos ⟨rfl, rfl⟩]

/-- Witness for C7: the whole-circle case at the concrete input (0,0) with
I = 5, J = 0, clockwise, and the concrete semicircle case. -/
theorem C7_arc_semicircle_whole_circle_witness :
    arcTotalAngle 0 0 0 0 5 0 true = 2 * Real.pi
    ∧ arcTotalAngle 0 0 10 0 5 0 false = Real.pi := by
  refine ⟨(C7_arc_semicircle_whole_circle 0 0 5 0 true ?_).2,
    (C7_arc_semicircle_whole_circle 0 0 5 0 false ?_).1.2⟩
  · rintro ⟨h, -⟩
    norm_num at h
  · rintro ⟨h, -⟩
    norm_num at h

/-! ## Trigger arbitration (GCodes.cpp lines 811-854)

GCodes::CheckTriggers over the lock state of the first section.
`fires i` models `triggers[i].Check()`, `isTriggerBusy` models
`IsTriggerBusy()`, and `triggerStateNormal` models
`triggerGCode->GetState() == GCodeState::normal`. -/

/-- The externally visible action taken by one CheckTriggers poll. -/
inductive TriggerAction where
  | noAction
  | emergencyStop
  | pausePrint
  | runMacroFile (n : ℕ)
  deriving DecidableEq

/-- Result of one CheckTriggers poll: the action, the new pending bitmap and
the new lock state. -/
structure TriggersOut (C : Type) where
  action : TriggerAction
  triggersPending : Finset ℕ
  lock : LockState C

/-- The pending bitmap after the polling loop (lines 813-819): previously
pending triggers plus those whose condition now fires. -/
def polledPending (pending : Finset ℕ) (maxTriggers : ℕ) (fires : ℕ → Bool) :
    Finset ℕ :=
  pending ∪ (Finset.range maxTriggers).filter (fun i => fires i = true)

/-- GCodes::CheckTriggers (lines 811-854): poll the trigger conditions, then
action only the lowest-numbered pending trigger: index 0 performs an
emergency stop unconditionally; when the trigger channel is idle, index 1
pauses only if really printing (silently discarded otherwise) and only after
acquiring the movement lock — leaving every pending bit set when the lock
cannot be taken — and any higher index invokes its numbered macro file. -/
def CheckTriggers (s : LockState C) (triggerChannel : C) (pending : Finset ℕ)
    (maxTriggers : ℕ) (fires : ℕ → Bool) (isReallyPrinting : Bool)
    (isTriggerBusy : Bool) (triggerStateNormal : Bool) : TriggersOut C :=
  if h : (polledPending pending maxTriggers fires).Nonempty then
    if (polledPending pending maxTriggers fires).min' h = 0 then
      { action := .emergencyStop
        triggersPending := (polledPending pending maxTriggers fires).erase 0
        lock := s }
    else if ¬ isTriggerBusy ∧ triggerStateNormal then
      if (polledPending pending maxTriggers fires).min' h = 1 then
        if ¬ isReallyPrinting then
          { action := .noAction
            triggersPending := (polledPending pending maxTriggers fires).erase 1
            lock := s }
        else if (LockResource s triggerChannel MoveResource).1 then
          { action := .pausePrint
            triggersPending := (polledPending pending maxTriggers fires).erase 1
            lock := (LockResource s triggerChannel MoveResource).2 }
        else
          { action := .noAction
            triggersPending := polledPending pending maxTriggers fires
            lock := (LockResource s triggerChannel MoveResource).2 }
      else
        { action := .runMacroFile ((polledPending pending maxTriggers fires).min' h)
          triggersPending := (polledPending pending maxTriggers fires).erase
            ((polledPending pending maxTriggers fires).min' h)
          lock := s }
    else
      { action := .noAction
        triggersPending := polledPending pending maxTriggers fires
        lock := s }
  else
    { action := .noAction
      triggersPending := polledPending pending maxTriggers fires
      lock := s }

/-! ### Claim C8 -/

/-- Claim C8: on each poll only the lowest-numbered pending trigger is
actioned.  Trigger 0 unconditionally performs an emergency stop and its bit
is cleared (all other bits stay pending); when the trigger channel is idle,
trigger 1 is silently discarded when not really printing, performs a pause
exactly when the movement lock can be acquired (clearing only bit 1 and
taking the lock), and when the lock cannot be acquired no trigger is
actioned, every pending bit stays set and the lock state is unchanged; a
higher-numbered lowest trigger runs its numbered macro file when the
trigger channel is idle; and when the channel is busy (and trigger 0 is not
pending) nothing is actioned and all bits stay pending. -/
theorem C8_trigger_arbitration {C : Type} [DecidableEq C] (s : LockState C)
    (tc : C) (pending : Finset ℕ) (maxT : ℕ) (fires : ℕ → Bool)
    (printing busy normalSt : Bool) :
    (0 ∈ polledPending pending maxT fires →
      (CheckTriggers s tc pending maxT fires printing busy normalSt).action
          = TriggerAction.emergencyStop
      ∧ 0 ∉ (CheckTriggers s tc pending maxT fires printing busy
          normalSt).triggersPending
      ∧ ∀ m ∈ polledPending pending maxT fires, m ≠ 0 →
          m ∈ (CheckTriggers s tc pending maxT fires printing busy
            normalSt).triggersPending)
    ∧ (0 ∉ polledPending pending maxT fires →
        1 ∈ polledPending pending maxT fires →
        busy = false → normalSt = true → printing = false →
      (CheckTriggers s tc pending maxT fires printing busy normalSt).action
          = TriggerAction.noAction
      ∧ 1 ∉ (CheckTriggers s tc pending maxT fires printing busy
          normalSt).triggersPending)
    ∧ (0 ∉ polledPending pending maxT fires →
        1 ∈ polledPending pending maxT fires →
        busy = false → normalSt = true → printing = true →
      ((s.resourceOwners MoveResource = none
          ∨ s.resourceOwners MoveResource = some tc) →
        (CheckTriggers s tc pending maxT fires printing busy normalSt).action
            = TriggerAction.pausePrint
        ∧ 1 ∉ (CheckTriggers s tc pending maxT fires printing busy
            normalSt).triggersPending
        ∧ (CheckTriggers s tc pending maxT fires printing busy
            normalSt).lock.resourceOwners MoveResource = some tc
        ∧ ∀ m ∈ polledPending pending maxT fires, m ≠ 1 →
            m ∈ (CheckTriggers s tc pending maxT fires printing busy
              normalSt).triggersPending)
      ∧ (∀ c2 : C, c2 ≠ tc → s.resourceOwners MoveResource = some c2 →
        (CheckTriggers s tc pending maxT fires printing busy normalSt).action
            = TriggerAction.noAction
        ∧ (CheckTriggers s tc pending maxT fires printing busy
            normalSt).triggersPending = polledPending pending maxT fires
        ∧ (CheckTriggers s tc pending maxT fires printing busy
            normalSt).lock = s))
    ∧ (∀ n, 2 ≤ n → n ∈ polledPending pending maxT fires →
        (∀ m, m < n → m ∉ polledPending pending maxT fires) →
        busy = false → normalSt = true →
      (CheckTriggers s tc pending maxT fires printing busy normalSt).action
          = TriggerAction.runMacroFile n
      ∧ n ∉ (CheckTriggers s tc pending maxT fires printing busy
          normalSt).triggersPending
      ∧ ∀ m ∈ polledPending pending maxT fires, m ≠ n →
          m ∈ (CheckTriggers s tc pending maxT fires printing busy
            normalSt).triggersPending)
    ∧ ((busy = true ∨ normalSt = false) →
        0 ∉ polledPending pending maxT fires →
      (CheckTriggers s tc pending maxT fires printing busy normalSt).action
          = TriggerAction.noAction
      ∧ (CheckTriggers s tc pending maxT fires printing busy
          normalSt).triggersPending = polledPending pending maxT fires) := by
  refine ⟨?_, ?_, ?_, ?_, ?_⟩
  · intro h0
    have hne : (polledPending pending maxT fires).Nonempty := ⟨0, h0⟩
    have hmin : (polledPending pending maxT fires).min' hne = 0 :=
      le_antisymm (Finset.min'_le _ _ h0) (Nat.zero_le _)
    unfold CheckTriggers
    rw [dif_pos hne, if_pos hmin]
    exact ⟨rfl, Finset.not_mem_erase _ _,
      fun m hm hm0 => Finset.mem_erase.mpr ⟨hm0, hm⟩⟩
  · intro h0 h1 hb hn hp
    have hne : (polledPending pending maxT fires).Nonempty := ⟨1, h1⟩
    have hmin : (polledPending pending maxT fires).min' hne = 1 := by
      have hle := Finset.min'_le _ _ h1
      have hmem := Finset.min'_mem _ hne
      have hnz : (polledPending pending maxT fires).min' hne ≠ 0 :=
        fun hz => h0 (hz ▸ hmem)
      omega
    unfold CheckTriggers
    rw [dif_pos hne, if_neg (by rw [hmin]; exact one_ne_zero),
      if_pos ⟨by rw [hb]; exact Bool.noConfusion, hn⟩, if_pos hmin,
      if_pos (by rw [hp]; exact Bool.noConfusion)]
    exact ⟨rfl, Finset.not_mem_erase _ _⟩
  · intro h0 h1 hb hn hp
    have hne : (polledPending pending maxT fires).Nonempty := ⟨1, h1⟩
    have hmin : (polledPending pending maxT fires).min' hne = 1 := by
      have hle := Finset.min'_le _ _ h1
      have hmem := Finset.min'_mem _ hne
      have hnz : (polledPending pending maxT fires).min' hne ≠ 0 :=
        fun hz => h0 (hz ▸ hmem)
      omega
    constructor
    · intro hlock
      have hlt : (LockResource s tc MoveResource).1 = true :=
        (LockResource_true_iff s tc MoveResource).mpr hlock
      unfold CheckTriggers
      rw [dif_pos hne, if_neg (by rw [hmin]; exact one_ne_zero),
        if_pos ⟨by rw [hb]; exact Bool.noConfusion, hn⟩, if_pos hmin,
        if_neg (fun hcon => hcon hp), if_pos hlt]
      exact ⟨rfl, Finset.not_mem_erase _ _, LockResource_owner s tc MoveResource hlt,
        fun m hm hm1 => Finset.mem_erase.mpr ⟨hm1, hm⟩⟩
    · intro c2 hc2 hown
      have hlf : (LockResource s tc MoveResource).1 = false := by
        rw [Bool.eq_false_iff]
        intro htrue
        rcases (LockResource_true_iff s tc MoveResource).mp htrue with h | h
        · rw [hown] at h
          exact Option.noConfusion h
        · rw [hown] at h
          exact hc2 (Option.some.inj h)
      unfold CheckTriggers
      rw [dif_pos hne, if_neg (by rw [hmin]; exact one_ne_zero),
        if_pos ⟨by rw [hb]; exact Bool.noConfusion, hn⟩, if_pos hmin,
        if_neg (fun hcon => hcon hp), if_neg (by rw [hlf]; exact Bool.noConfusion)]
      exact ⟨rfl, rfl, LockResource_false_eq s tc MoveResource hlf⟩
  · intro n h2 hnmem hforall hb hn
    have hne : (polledPending pending maxT fires).Nonempty := ⟨n, hnmem⟩
    have hmin : (polledPending pending maxT fires).min' hne = n := by
      have hle := Finset.min'_le _ _ hnmem
      have hmem := Finset.min'_mem _ hne
      have hge : n ≤ (polledPending pending maxT fires).min' hne := by
        by_contra hlt
        push_neg at hlt
        exact hforall _ hlt hmem
      omega
    unfold CheckTriggers
    rw [dif_pos hne, if_neg (by rw [hmin]; omega),
      if_pos ⟨by rw [hb]; exact Bool.noConfusion, hn⟩, if_neg (by rw [hmin]; omega),
      hmin]
    exact ⟨rfl, Finset.not_mem_erase _ _,
      fun m hm hmn => Finset.mem_erase.mpr ⟨hmn, hm⟩⟩
  · intro hor h0
    by_cases hne : (polledPending pending maxT fires).Nonempty
    · have hnz : (polledPending pending maxT fires).min' hne ≠ 0 :=
        fun hz => h0 (hz ▸ Finset.min'_mem _ hne)
      unfold CheckTriggers
      rw [dif_pos hne, if_neg hnz, if_neg ?_]
      · exact ⟨rfl, rfl⟩
      · rintro ⟨hnb, hns⟩
        rcases hor with h | h
        · exact hnb h
        · rw [h] at hns
          exact Bool.noConfusion hns
    · unfold CheckTriggers
      rw [dif_neg hne]
      exact ⟨rfl, rfl⟩

/-- Witness for C8: with pending triggers 1, 3 and 5, the trigger channel
idle, the printer really printing and the movement lock free, only trigger 1
is actioned (a pause), bit 1 is cleared, bits 3 and 5 stay pending and the
trigger channel now owns the movement lock. -/
theorem C8_trigger_arbitration_witness :
    (CheckTriggers exFreeLock (1 : Fin 2) {1, 3, 5} 6 (fun _ => false)
        true false true).action = TriggerAction.pausePrint
    ∧ 1 ∉ (CheckTriggers exFreeLock (1 : Fin 2) {1, 3, 5} 6 (fun _ => false)
        true false true).triggersPending
    ∧ 3 ∈ (CheckTriggers exFreeLock (1 : Fin 2) {1, 3, 5} 6 (fun _ => false)
        true false true).triggersPending
    ∧ (CheckTriggers exFreeLock (1 : Fin 2) {1, 3, 5} 6 (fun _ => false)
        true false true).lock.resourceOwners MoveResource = some 1 := by
  have h := ((C8_trigger_arbitration exFreeLock (1 : Fin 2) {1, 3, 5} 6
    (fun _ => false) true false true).2.2.1 (by decide) (by decide) rfl rfl rfl).1
    (Or.inl rfl)
  exact ⟨h.1, h.2.1, h.2.2.2 3 (by decide) (by decide), h.2.2.1⟩

/-! ## Restore points (GCodes.cpp lines 4156-4193)

GCodes::SavePosition and GCodes::RestorePosition over the machine state
fields they touch.  Coordinates, feed rate and positions are rationals;
`filePos` is an optional file offset; `laserPwmOrIoBits` is the raw
laser/IO word. -/

/-- The machine-state fields read and written by SavePosition and
RestorePosition: the shared move state's user position and initial arc
coordinates, the given channel's feed rate and file position, and the
globals for extrusion, tool, and fan. -/
structure PState where
  numVisibleAxes : ℕ
  currentUserPosition : ℕ → ℚ
  feedRate : ℚ
  virtualExtruderPosition : ℚ
  filePos : Option ℕ
  currentToolNumber : ℤ
  lastDefaultFanSpeed : ℚ
  laserPwmOrIoBits : ℕ
  initialUserC0 : ℚ
  initialUserC1 : ℚ

/-- The RestorePoint record. -/
structure RestorePoint where
  moveCoords : ℕ → ℚ
  feedRate : ℚ
  virtualExtruderPosition : ℚ
  filePos : Option ℕ
  toolNumber : ℤ
  fanSpeed : ℚ
  laserPwmOrIoBits : ℕ
  initialUserC0 : ℚ
  initialUserC1 : ℚ

/-- GCodes::SavePosition (lines 4156-4172): copy the visible-axis user
coordinates, the channel feed rate, the virtual extruder position, the file
position, the current tool number, the fan speed and the laser word into
the restore point.  The restore point's initialUserC0/C1 are not written. -/
def SavePosition (st : PState) (rp : RestorePoint) : RestorePoint :=
  { rp with
      moveCoords := fun a => if a < st.numVisibleAxes
        then st.currentUserPosition a else rp.moveCoords a
      feedRate := st.feedRate
      virtualExtruderPosition := st.virtualExtruderPosition
      filePos := st.filePos
      toolNumber := st.currentToolNumber
      fanSpeed := st.lastDefaultFanSpeed
      laserPwmOrIoBits := st.laserPwmOrIoBits }

/-- GCodes::RestorePosition (lines 4175-4193): restore the visible-axis
user coordinates, the channel feed rate (only when a channel is given), the
initial arc coordinates and the laser word.  The tool number is NOT
restored (callers reselect the tool separately, as EndSimulation does). -/
def RestorePosition (st : PState) (rp : RestorePoint) (gbPresent : Bool) :
    PState :=
  { st with
      currentUserPosition := fun a => if a < st.numVisibleAxes
        then rp.moveCoords a else st.currentUserPosition a
      feedRate := if gbPresent then rp.feedRate else st.feedRate
      initialUserC0 := rp.initialUserC0
      initialUserC1 := rp.initialUserC1
      laserPwmOrIoBits := rp.laserPwmOrIoBits }

/-- A concrete machine state with one visible axis and tool 2 active. -/
def exPauseState : PState :=
  { numVisibleAxes := 1
    currentUserPosition := fun a => if a = 0 then 7 else 0
    feedRate := 50
    virtualExtruderPosition := 3
    filePos := some 1000
    currentToolNumber := 2
    lastDefaultFanSpeed := 1/2
    laserPwmOrIoBits := 0
    initialUserC0 := 0
    initialUserC1 := 0 }

/-- An all-zero restore point. -/
def exRestorePoint0 : RestorePoint :=
  { moveCoords := fun _ => 0
    feedRate := 0
    virtualExtruderPosition := 0
    filePos := none
    toolNumber := 0
    fanSpeed := 0
    laserPwmOrIoBits := 0
    initialUserC0 := 0
    initialUserC1 := 0 }

/-! ### Claim C9 -/

/-- Counterexample to claim C9 as stated: save with tool 2 active, change
the active tool to 5 (as a pause/resume cycle may), then restore: the
restore point recorded tool 2, but RestorePosition leaves the active tool
at 5 — it does not reproduce the saved tool number. -/
theorem C9_counterexample :
    (SavePosition exPauseState exRestorePoint0).toolNumber = 2
    ∧ ({ exPauseState with currentToolNumber := 5 } : PState).currentToolNumber = 5
    ∧ (RestorePosition { exPauseState with currentToolNumber := 5 }
        (SavePosition exPauseState exRestorePoint0) true).currentToolNumber = 5 := by
  exact ⟨rfl, rfl, rfl⟩

/-- Claim C9 (amended): saving a restore point and later restoring it (with
a channel present, from any intermediate state with the same number of
visible axes) reproduces exactly the user-space axis coordinates and the
feed rate in effect at the moment of saving; the active tool number is
recorded in the restore point but RestorePosition does not reapply it — the
active tool stays whatever it was before the restore. -/
theorem C9_save_restore_round_trip (s s1 : PState) (rp0 : RestorePoint)
    (hax : s1.numVisibleAxes = s.numVisibleAxes) :
    (∀ a, a < s.numVisibleAxes →
        (RestorePosition s1 (SavePosition s rp0) true).currentUserPosition a
          = s.currentUserPosition a)
    ∧ (RestorePosition s1 (SavePosition s rp0) true).feedRate = s.feedRate
    ∧ (SavePosition s rp0).toolNumber = s.currentToolNumber
    ∧ (RestorePosition s1 (SavePosition s rp0) true).currentToolNumber
        = s1.currentToolNumber := by
  refine ⟨?_, rfl, rfl, rfl⟩
  intro a ha
  show (if a < s1.numVisibleAxes
      then (SavePosition s rp0).moveCoords a else s1.currentUserPosition a)
    = s.currentUserPosition a
  rw [if_pos (by rw [hax]; exact ha)]
  show (if a < s.numVisibleAxes
      then s.currentUserPosition a else rp0.moveCoords a)
    = s.currentUserPosition a
  rw [if_pos ha]

/-- Witness for the amended C9 at concrete states: the round trip restores
the coordinate and the feed rate, the saved tool number is 2, and the
active tool after restoring remains the intermediate state's tool 5. -/
theorem C9_save_restore_round_trip_witness :
    (RestorePosition { exPauseState with currentToolNumber := 5 }
        (SavePosition exPauseState exRestorePoint0) true).currentUserPosition 0
      = exPauseState.currentUserPosition 0
    ∧ (RestorePosition { exPauseState with currentToolNumber := 5 }
        (SavePosition exPauseState exRestorePoint0) true).feedRate
      = exPauseState.feedRate
    ∧ (SavePosition exPauseState exRestorePoint0).toolNumber
      = exPauseState.currentToolNumber
    ∧ (RestorePosition { exPauseState with currentToolNumber := 5 }
        (SavePosition exPauseState exRestorePoint0) true).currentToolNumber
      = ({ exPauseState with currentToolNumber := 5 } : PState).currentToolNumber := by
  have h := C9_save_restore_round_trip exPauseState
    { exPauseState with currentToolNumber := 5 } exRestorePoint0 rfl
  exact ⟨h.1 0 (by decide), h.2.1, h.2.2.1, h.2.2.2⟩

end RepRapFW
